import Mathlib

/-!
Verification of the sailor-go Resource Synchronization Engine.

This file shallowly embeds the map-based consumer of the repository
(`sailor.go`, `interface.go`, `errors.go`, `pkg/opts`) in Lean and proves
properties of the embedded definitions.  External collaborators declared at
their boundary by the design (JSON (de)serialization, the HTTP transport, the
filesystem, environment variables) are modelled as explicit function
parameters gathered in a `World`; everything else is translated directly from
the Go source.  Machine-level concerns (goroutines, atomics) are modelled by
explicit state passing: each engine operation maps a `SailorState` to a
result carrying the updated state.
-/

namespace SailorGo

/-- Dynamic JSON-ish value, the target of decoding into Go's `map[string]any`
(the shape of individual values is immaterial to the engine, which treats
them opaquely). -/
inductive JVal where
  | str (s : String)
  | num (n : Int)
  | boolean (b : Bool)
  | null
deriving DecidableEq, Repr

/-- Association list standing for a Go `map[string]α`.  Only `lookupA` and
`upsertA` observe it, so list order is irrelevant to every theorem below. -/
abbrev AList (α : Type) : Type := List (String × α)

/-- Lookup in a Go map: `m[k]` as an `Option`. -/
def lookupA {α : Type} : AList α → String → Option α
  | [], _ => none
  | (k, v) :: rest, key => if key = k then some v else lookupA rest key

/-- Drop every binding of `key`, keeping the rest of the map. -/
def removeKey {α : Type} : AList α → String → AList α
  | [], _ => []
  | (k, v) :: rest, key => if k = key then removeKey rest key else (k, v) :: removeKey rest key

/-- Go map write `m[k] = v`, also the effect of `maps.Copy(dst, {k: v})`:
replace any binding of `k` and bind `k` to `v`. -/
def upsertA {α : Type} (m : AList α) (k : String) (v : α) : AList α :=
  removeKey m k ++ [(k, v)]

/-- Errors produced by the engine.  `errors.New` / `fmt.Errorf` values are
identified by their message; errors coming out of the opaque collaborators
(`json.Unmarshal`, `http.Client.Get`, `io.ReadAll`) are abstract markers. -/
inductive GoErr where
  | msg (s : String)
  | jsonError
  | httpError
  | readError
deriving DecidableEq, Repr

/-- errors.go: ErrNewConsumerEmptyResourceList. -/
def ErrNewConsumerEmptyResourceList : GoErr :=
  .msg "no resources to manage, pass Resources inside opts"

/-- errors.go: ErrNewConsumerNoSailorURL. -/
def ErrNewConsumerNoSailorURL : GoErr :=
  .msg "cannot connect to sailor without address, either pass ENV_SAILOR_URL or set Connection in SailorOpts"

/-- errors.go: ErrNewConsumerNoSailorNS. -/
def ErrNewConsumerNoSailorNS : GoErr :=
  .msg "cannot connect to sailor without address, either pass ENV_SAILOR_NS or set Connection in SailorOpts"

/-- errors.go: ErrNewConsumerNoSailorApp. -/
def ErrNewConsumerNoSailorApp : GoErr :=
  .msg "cannot connect to sailor without address, either pass ENV_SAILOR_APP or set Connection in SailorOpts"

/-- errors.go: ErrNewConsumerNoSailorAccessKey. -/
def ErrNewConsumerNoSailorAccessKey : GoErr :=
  .msg "cannot connect to sailor without address, either pass ENV_SAILOR_ACCESS_KEY or set Connection in SailorOpts"

/-- errors.go: ErrNewConsumerNoSailorSecretKey. -/
def ErrNewConsumerNoSailorSecretKey : GoErr :=
  .msg "cannot connect to sailor without address, either pass ENV_SAILOR_SECRET_KEY or set Connection in SailorOpts"

/-- errors.go: ErrFetchFallbackFailed. -/
def ErrFetchFallbackFailed : GoErr :=
  .msg "cannot find config to serve, fallback fetch also failed"

/-- errors.go: ErrConfigsNotLoaded. -/
def ErrConfigsNotLoaded : GoErr := .msg "configs are not loaded"

/-- errors.go: ErrSecretsNotLoaded. -/
def ErrSecretsNotLoaded : GoErr := .msg "secrets are not loaded"

/-- errors.go: ErrMiscNotLoaded. -/
def ErrMiscNotLoaded : GoErr := .msg "misc resource are not loaded"

/-- pkg/opts: ResourceKind (string constants "config", "secret", "misc"). -/
inductive ResourceKind where
  | configs
  | secrets
  | misc
deriving DecidableEq, Repr

/-- The string value of a ResourceKind constant (CONFIGS = "config",
SECRETS = "secret", MISC = "misc"), as interpolated by `fmt.Sprintf("%s")`. -/
def kindSegment : ResourceKind → String
  | .configs => "config"
  | .secrets => "secret"
  | .misc => "misc"

/-- pkg/opts: FetchOption. -/
inductive FetchOption where
  | volume
  | pull
deriving DecidableEq, Repr

/-- pkg/opts: ConnectionOption (SocketTimeout omitted: no embedded code path
reads it). -/
structure ConnectionOption where
  Addr : String
  Namespace : String
  App : String
  AccessKey : String
  SecretKey : String
deriving DecidableEq, Repr

/-- pkg/opts: ResourceDefinition. -/
structure ResourceDefinition where
  Kind : ResourceKind
  Name : String
  Path : String
deriving DecidableEq, Repr

/-- pkg/opts: FetchDefinition (PullInterval omitted: it only times the
background poll loop, which is outside the state-transition embedding). -/
structure FetchDefinition where
  Fetch : FetchOption
  Once : Bool
deriving DecidableEq, Repr

/-- pkg/opts: ResourceOption. -/
structure ResourceOption where
  Def : ResourceDefinition
  FetchDef : FetchDefinition
  FallbackEnabled : Bool
deriving DecidableEq, Repr

/-- pkg/opts: InitOption (Logging omitted: never read). -/
structure InitOption where
  Connection : Option ConnectionOption
  Resources : List ResourceOption
deriving DecidableEq, Repr

/-- sailor.go: watcherInfo. -/
structure WatcherInfo where
  kind : ResourceKind
  path : String
  name : String
deriving DecidableEq, Repr

/-- The engine's mutable state: the fields of the package-global `sailor`
struct plus the package-global `watcherFileNameResourceMap`.  The three
`atomic.Value` snapshot references are `Option`s, `none` standing for a
reference that has never been `Store`d.  `watchedPaths` records the argument
of every `watcher.Add` call, in call order. -/
structure SailorState where
  opts : InitOption
  configs : Option (AList JVal)
  secrets : Option (AList String)
  misc : Option (AList String)
  watcherFileNameResourceMap : AList WatcherInfo
  watchedPaths : List String
  hasWatchableResource : Bool
deriving DecidableEq, Repr

/-- The zero value of the package-global `consumer` before `Initialize`
runs: `opts.InitOption{}` has a nil Connection and nil Resources, and no
snapshot reference has been stored. -/
def initialState : SailorState :=
  { opts := { Connection := none, Resources := [] }
    configs := none
    secrets := none
    misc := none
    watcherFileNameResourceMap := []
    watchedPaths := []
    hasWatchableResource := false }

/-- Result of an HTTP GET that returned a response: the status code and the
outcome of `io.ReadAll` on the body (`none` models a body-read error). -/
structure HttpResp where
  status : Nat
  body : Option String
deriving DecidableEq, Repr

/-- The opaque JSON (de)serialization collaborator: decoding bytes into
`map[string]string` and into `map[string]any`.  `none` models a
`json.Unmarshal` error. -/
structure JsonCodec where
  parseStrMap : String → Option (AList String)
  parseAnyMap : String → Option (AList JVal)

/-- The external world the engine runs against: environment variables
(`os.Getenv`, empty string when unset), the filesystem (`os.ReadFile`,
`none` models an error), the HTTP transport (`http.Client.Get`, `none`
models a transport error) and the JSON codec. -/
structure World where
  env : String → String
  fs : String → Option String
  fetch : String → Option HttpResp
  codec : JsonCodec

/-- Outcome of running an engine operation: a normal return with the updated
state and, for the error case, the returned Go error, or a runtime panic
(nil-pointer dereference).  Mutations made before an error return persist,
so the error case carries the state as well. -/
inductive RunOut where
  | ok (st : SailorState)
  | err (st : SailorState) (e : GoErr)
  | panicked (st : SailorState)
deriving DecidableEq, Repr

/-- The state carried by a RunOut. -/
def outState : RunOut → SailorState
  | .ok st => st
  | .err st _ => st
  | .panicked st => st

/-- Whether a RunOut is a normal, error-free return. -/
def RunOut.isOk : RunOut → Bool
  | .ok _ => true
  | _ => false

/-- Whether a RunOut is an error return. -/
def RunOut.isErr : RunOut → Bool
  | .err _ _ => true
  | _ => false

/-- Whether a RunOut is a panic. -/
def RunOut.isPanic : RunOut → Bool
  | .panicked _ => true
  | _ => false

/-- Whether an `Except` is an error. -/
def isErrE {α : Type} : Except GoErr α → Bool
  | .error _ => true
  | .ok _ => false

/-- sailor.go lines 210-227, `parseConfig`: unmarshal the bytes into a
`map[string]string`, then unmarshal the text under the `"_content"` key
(Go map indexing yields the zero value `""` when the key is absent) into a
`map[string]any`. -/
def parseConfig (codec : JsonCodec) (configBytes : String) : Except GoErr (AList JVal) :=
  match codec.parseStrMap configBytes with
  | none => .error .jsonError
  | some content =>
    match codec.parseAnyMap ((lookupA content "_content").getD "") with
    | none => .error .jsonError
    | some config => .ok config

/-- sailor.go lines 229-245, `parseMisc`: unmarshal the bytes into a
`map[string]string`, then clone the current misc mapping (the
`consumer.misc.Load()` the source performs is passed in as `oldMiscMap`) and
overlay the single entry `resourceName -> content["_content"]`. -/
def parseMisc (codec : JsonCodec) (oldMiscMap : AList String) (miscBytes resourceName : String) :
    Except GoErr (AList String) :=
  match codec.parseStrMap miscBytes with
  | none => .error .jsonError
  | some content =>
    .ok (upsertA oldMiscMap resourceName ((lookupA content "_content").getD ""))

/-- sailor.go lines 556-589, `storeRawResource`: decode the bytes per kind
and replace that category's snapshot; for misc, clone the current map and
overlay the single entry `resourceName -> resBytes`. -/
def storeRawResource (codec : JsonCodec) (st : SailorState) (resBytes : String)
    (forKind : ResourceKind) (resourceName : String) : Except GoErr SailorState :=
  match forKind with
  | .configs =>
    match codec.parseAnyMap resBytes with
    | none => .error .jsonError
    | some config => .ok { st with configs := some config }
  | .secrets =>
    match codec.parseStrMap resBytes with
    | none => .error .jsonError
    | some secret => .ok { st with secrets := some secret }
  | .misc =>
    match st.misc with
    | none => .ok { st with misc := some [(resourceName, resBytes)] }
    | some oldMiscMap => .ok { st with misc := some (upsertA oldMiscMap resourceName resBytes) }

/-- sailor.go lines 480-503, `fetchFallback`: read the fallback base URL from
the environment; if empty, fail with ErrFetchFallbackFailed; otherwise GET
`{base}/{App}-{kind}.sailor.fall`, read the body and hand it to
`storeRawResource`.  The response status code is never examined.  Accessing
`s.opts.Connection.App` with a nil Connection panics. -/
def fetchFallback (w : World) (st : SailorState) (forKind : ResourceKind) (resName : String) : RunOut :=
  let fallbackBaseURL := w.env "SAILOR_FALLBACK_BASE_URL"
  if fallbackBaseURL ≠ "" then
    match st.opts.Connection with
    | none => .panicked st
    | some conn =>
      let url := fallbackBaseURL ++ "/" ++ conn.App ++ "-" ++ kindSegment forKind ++ ".sailor.fall"
      match w.fetch url with
      | none => .err st .httpError
      | some resp =>
        match resp.body with
        | none => .err st .readError
        | some resBytes =>
          match storeRawResource w.codec st resBytes forKind resName with
          | .error e => .err st e
          | .ok st' => .ok st'
  else
    .err st ErrFetchFallbackFailed

/-- sailor.go lines 248-321, `manageConfig`.  VOLUME: read
`{Path}/{App}-config`; on read success parse, store, register the file with
the watcher (the `break` on a parse error exits the switch and the function
returns nil without storing and without falling back); on read failure call
`fetchFallback`.  PULL: GET the config URL; a transport error routes to
`fetchFallback`, while a non-200 status, body-read error or unmarshal error
`break`s out of the switch to the trailing `return nil`.  The background
`keepPullingResource` goroutine is outside this state transition.  Accessing
`s.opts.Connection` when it is nil panics. -/
def manageConfig (w : World) (st : SailorState) (res : ResourceOption) : RunOut :=
  match res.FetchDef.Fetch with
  | .volume =>
    match st.opts.Connection with
    | none => .panicked st
    | some conn =>
      let fileName := conn.App ++ "-config"
      let resourcePath := res.Def.Path ++ "/" ++ fileName
      match w.fs resourcePath with
      | some configBytes =>
        match parseConfig w.codec configBytes with
        | .error _ => .ok st
        | .ok config =>
          .ok { st with
                configs := some config
                hasWatchableResource := true
                watcherFileNameResourceMap :=
                  upsertA st.watcherFileNameResourceMap fileName ⟨.configs, resourcePath, ""⟩
                watchedPaths := st.watchedPaths ++ [resourcePath] }
      | none => fetchFallback w st res.Def.Kind res.Def.Name
  | .pull =>
    match st.opts.Connection with
    | none => .panicked st
    | some conn =>
      let url := conn.Addr ++ "/api/v1/resource/" ++ conn.Namespace ++ "/" ++ conn.App ++ "/config"
      match w.fetch url with
      | some resp =>
        if resp.status ≠ 200 then .ok st
        else
          match resp.body with
          | none => .ok st
          | some configBytes =>
            match w.codec.parseAnyMap configBytes with
            | none => .ok st
            | some config => .ok { st with configs := some config }
      | none => fetchFallback w st res.Def.Kind res.Def.Name

/-- sailor.go lines 323-398, `manageSecrets`.  Identical control flow to
`manageConfig` except the file is `{Path}/{App}-secret`, the payload is
unmarshalled directly into a `map[string]string` (no envelope and no
decryption step), and the URL tail is `/secret`. -/
def manageSecrets (w : World) (st : SailorState) (res : ResourceOption) : RunOut :=
  match res.FetchDef.Fetch with
  | .volume =>
    match st.opts.Connection with
    | none => .panicked st
    | some conn =>
      let fileName := conn.App ++ "-secret"
      let resourcePath := res.Def.Path ++ "/" ++ fileName
      match w.fs resourcePath with
      | some secretBytes =>
        match w.codec.parseStrMap secretBytes with
        | none => .ok st
        | some secret =>
          .ok { st with
                secrets := some secret
                hasWatchableResource := true
                watcherFileNameResourceMap :=
                  upsertA st.watcherFileNameResourceMap fileName ⟨.secrets, resourcePath, ""⟩
                watchedPaths := st.watchedPaths ++ [resourcePath] }
      | none => fetchFallback w st res.Def.Kind res.Def.Name
  | .pull =>
    match st.opts.Connection with
    | none => .panicked st
    | some conn =>
      let url := conn.Addr ++ "/api/v1/resource/" ++ conn.Namespace ++ "/" ++ conn.App ++ "/secret"
      match w.fetch url with
      | some resp =>
        if resp.status ≠ 200 then .ok st
        else
          match resp.body with
          | none => .ok st
          | some secretBytes =>
            match w.codec.parseStrMap secretBytes with
            | none => .ok st
            | some secret => .ok { st with secrets := some secret }
      | none => fetchFallback w st res.Def.Kind res.Def.Name

/-- sailor.go lines 400-478, `manageMisc`.  VOLUME: the file is
`{Path}/{App}-{Name}-misc`; a `parseMisc` failure is returned as an error
(unlike config/secret volume parse failures).  PULL: on a 200 response the
raw body is overlaid onto a clone of the current misc map under `Name`;
non-200, body-read and no other decode steps `break` to the trailing
`return nil`; a transport error routes to `fetchFallback`. -/
def manageMisc (w : World) (st : SailorState) (res : ResourceOption) : RunOut :=
  let resourceName := res.Def.Name ++ "-" ++ "misc"
  match res.FetchDef.Fetch with
  | .volume =>
    match st.opts.Connection with
    | none => .panicked st
    | some conn =>
      let fileName := conn.App ++ "-" ++ resourceName
      let resourcePath := res.Def.Path ++ "/" ++ fileName
      match w.fs resourcePath with
      | some miscBytes =>
        match parseMisc w.codec ((st.misc).getD []) miscBytes res.Def.Name with
        | .error e => .err st e
        | .ok miscMap =>
          .ok { st with
                misc := some miscMap
                hasWatchableResource := true
                watcherFileNameResourceMap :=
                  upsertA st.watcherFileNameResourceMap fileName ⟨.misc, resourcePath, res.Def.Name⟩
                watchedPaths := st.watchedPaths ++ [resourcePath] }
      | none => fetchFallback w st res.Def.Kind res.Def.Name
  | .pull =>
    match st.opts.Connection with
    | none => .panicked st
    | some conn =>
      let url := conn.Addr ++ "/api/v1/resource/" ++ conn.Namespace ++ "/" ++ conn.App
                   ++ "/misc/" ++ res.Def.Name
      match w.fetch url with
      | some resp =>
        if resp.status ≠ 200 then .ok st
        else
          match resp.body with
          | none => .ok st
          | some miscBytes =>
            match st.misc with
            | none => .ok { st with misc := some [(res.Def.Name, miscBytes)] }
            | some oldMiscMap =>
              .ok { st with misc := some (upsertA oldMiscMap res.Def.Name miscBytes) }
      | none => fetchFallback w st res.Def.Kind res.Def.Name

/-- sailor.go lines 124-139: dispatch one declared resource on its Kind. -/
def manageResource (w : World) (st : SailorState) (res : ResourceOption) : RunOut :=
  match res.Def.Kind with
  | .configs => manageConfig w st res
  | .secrets => manageSecrets w st res
  | .misc => manageMisc w st res

/-- The `for _, res := range initOpts.Resources` loop of `Initialize`:
each manage error aborts the loop and is returned, keeping the mutations
made so far. -/
def manageAll (w : World) : SailorState → List ResourceOption → RunOut
  | st, [] => .ok st
  | st, res :: rest =>
    match manageResource w st res with
    | .ok st' => manageAll w st' rest
    | out => out

/-- sailor.go lines 89-107: derive a ConnectionOption from the environment,
checking SAILOR_URL, SAILOR_NS, SAILOR_APP, SAILOR_ACCESS_KEY and
SAILOR_SECRET_KEY in that order and returning the first missing variable's
error (the source builds these errors with `errors.New` using the same
message strings as the errors.go constants). -/
def connFromEnv (env : String → String) : Except GoErr ConnectionOption :=
  let addr := env "SAILOR_URL"
  if addr = "" then .error ErrNewConsumerNoSailorURL
  else
    let ns := env "SAILOR_NS"
    if ns = "" then .error ErrNewConsumerNoSailorNS
    else
      let app := env "SAILOR_APP"
      if app = "" then .error ErrNewConsumerNoSailorApp
      else
        let accessKey := env "SAILOR_ACCESS_KEY"
        if accessKey = "" then .error ErrNewConsumerNoSailorAccessKey
        else
          let secretKey := env "SAILOR_SECRET_KEY"
          if secretKey = "" then .error ErrNewConsumerNoSailorSecretKey
          else .ok ⟨addr, ns, app, accessKey, secretKey⟩

/-- sailor.go lines 112-147: store fresh empty snapshot references for the
three categories, then manage every declared resource in declaration order
(the fsnotify watcher construction and the background watcher goroutine are
outside this state transition). -/
def initAndManage (w : World) (st : SailorState) (initOpts : InitOption) : RunOut :=
  manageAll w
    { st with configs := some [], secrets := some [], misc := some [] }
    initOpts.Resources

/-- sailor.go lines 80-148, `Initialize`.  An empty resource list is
rejected first.  With a nil Connection the five environment variables are
validated, but the derived ConnectionOption is dropped: the source assigns
`consumer.opts = initOpts` only in the else branch, so in the environment
branch `consumer.opts` keeps its previous value. -/
def Initialize (w : World) (initOpts : InitOption) (st : SailorState) : RunOut :=
  if initOpts.Resources.isEmpty then
    .err st ErrNewConsumerEmptyResourceList
  else
    match initOpts.Connection with
    | none =>
      match connFromEnv w.env with
      | .error e => .err st e
      | .ok _ => initAndManage w st initOpts
    | some _ => initAndManage w { st with opts := initOpts } initOpts

/-- Characters of the last slash-separated component of a path. -/
def baseNameAux : List Char → List Char → List Char
  | [], acc => acc
  | c :: rest, acc => if c = '/' then baseNameAux rest [] else baseNameAux rest (acc ++ [c])

/-- path.Base for the slash-separated paths the engine builds: the last
path component. -/
def baseName (p : String) : String := ⟨baseNameAux p.data []⟩

/-- sailor.go lines 152-208: one iteration of `watchForVolumeChanges` on a
filesystem event.  Only Write events are acted on; the changed file's base
name is looked up in `watcherFileNameResourceMap`; the matched resource is
re-read and re-decoded, and only on success is the category's snapshot
replaced — a read or decode failure is logged and the iteration `continue`s
with the state untouched.  (The misc branch's `parseMisc` loads the current
misc map, which the initialization sequence has always stored by the time
the watcher goroutine starts.) -/
def watchStep (w : World) (st : SailorState) (eventName : String) (isWrite : Bool) : SailorState :=
  if isWrite then
    let resourceName := baseName eventName
    match lookupA st.watcherFileNameResourceMap resourceName with
    | none => st
    | some wi =>
      match wi.kind with
      | .configs =>
        match w.fs wi.path with
        | none => st
        | some configBytes =>
          match parseConfig w.codec configBytes with
          | .error _ => st
          | .ok config => { st with configs := some config }
      | .secrets =>
        match w.fs wi.path with
        | none => st
        | some secretBytes =>
          match w.codec.parseStrMap secretBytes with
          | none => st
          | some secret => { st with secrets := some secret }
      | .misc =>
        match w.fs wi.path with
        | none => st
        | some miscBytes =>
          match parseMisc w.codec ((st.misc).getD []) miscBytes wi.name with
          | .error _ => st
          | .ok misc => { st with misc := some misc }
  else st

/-- interface.go lines 34-41, `SailorInstance.Get`: look the key up in the
loaded config map and fail with the generic missing-key error otherwise. -/
def Get (config : AList JVal) (key : String) : Except GoErr JVal :=
  match lookupA config key with
  | none => .error (.msg ("config key " ++ key ++ " not found"))
  | some v => .ok v

/-- interface.go lines 43-51, `SailorInstance.GetSecret`. -/
def GetSecret (secrets : AList String) (key : String) : Except GoErr String :=
  match lookupA secrets key with
  | none => .error (.msg ("secret key " ++ key ++ " not found"))
  | some v => .ok v

/-- interface.go lines 53-61, `SailorInstance.GetMisc`. -/
def GetMisc (misc : AList String) (resourceName : String) : Except GoErr String :=
  match lookupA misc resourceName with
  | none => .error (.msg ("misc resource " ++ resourceName ++ " not found"))
  | some v => .ok v

/-- Modelled from the spec: the secret-decryption and key-derivation routine
(the repository's vault package: DeriveKEK, DecryptDEK, DecryptWithDEK) is
not among the embedded engine sources; the spec treats it as an opaque
`decrypt(cipher, credentials) -> plaintext` capability.  `decryptRecord`
takes an encrypted secret record together with the connection's secret key
and access key and yields the plaintext, or `none` when decryption fails. -/
structure DecryptCap where
  decryptRecord : String → String → String → Option String

/-- Failure of a watcher re-ingestion attempt for one registration: the
re-read errors, or the re-decode of the read bytes errors (per-kind, exactly
the decode the watcher branch for that kind performs). -/
def reIngestFails (w : World) (st : SailorState) (wi : WatcherInfo) : Bool :=
  match w.fs wi.path with
  | none => true
  | some bytes =>
    match wi.kind with
    | .configs => isErrE (parseConfig w.codec bytes)
    | .secrets => (w.codec.parseStrMap bytes).isNone
    | .misc => isErrE (parseMisc w.codec ((st.misc).getD []) bytes wi.name)

/-- A codec on which every unmarshal fails; concrete scenarios override the
inputs they care about. -/
def emptyCodec : JsonCodec := ⟨fun _ => none, fun _ => none⟩

/-- Concrete connection used by the secret-decryption scenario. -/
def conn1 : ConnectionOption := ⟨"http://s", "ns", "myapp", "ak", "sk"⟩

/-- Codec for the secret scenario: the secret file parses to a single-entry
name-to-record mapping whose record is an encrypted blob. -/
def codec1 : JsonCodec :=
  ⟨fun b => if b = "SECFILE" then some [("k", "ENC:shhh")] else none, fun _ => none⟩

/-- World for the secret scenario: the mounted secret file for app `myapp`
exists and holds the encrypted record. -/
def w1 : World :=
  ⟨fun _ => "",
   fun p => if p = "/etc/sailor/myapp-secret" then some "SECFILE" else none,
   fun _ => none,
   codec1⟩

/-- A SECRETS resource acquired from the mounted path `/etc/sailor`. -/
def res1 : ResourceOption := ⟨⟨.secrets, "", "/etc/sailor"⟩, ⟨.volume, false⟩, true⟩

/-- Engine state right after the snapshot references are initialized, with
the connection supplied programmatically. -/
def st1 : SailorState :=
  { initialState with
    opts := ⟨some conn1, [res1]⟩, configs := some [], secrets := some [], misc := some [] }

/-- A concrete decryption capability: the record "ENC:shhh" decrypts to
"shhh" under exactly the credential pair of `conn1`. -/
def cap1 : DecryptCap :=
  ⟨fun c sk ak => if c = "ENC:shhh" ∧ sk = "sk" ∧ ak = "ak" then some "shhh" else none⟩

/-- Concrete connection for the read-before-commit scenario. -/
def conn2 : ConnectionOption := ⟨"http://s", "ns", "app", "ak", "sk"⟩

/-- A MISC resource fetched once by pull; no CONFIGS or SECRETS resource is
declared, so those categories receive no commit beyond initialization. -/
def res2 : ResourceOption := ⟨⟨.misc, "ash", ""⟩, ⟨.pull, true⟩, true⟩

/-- World for the read-before-commit scenario: only the misc pull URL
answers, with a 200 response. -/
def w2 : World :=
  ⟨fun _ => "",
   fun _ => none,
   fun u => if u = "http://s/api/v1/resource/ns/app/misc/ash"
            then some ⟨200, some "mval"⟩ else none,
   emptyCodec⟩

/-- InitOption for the read-before-commit scenario. -/
def opts2 : InitOption := ⟨some conn2, [res2]⟩

/-- The engine state produced by initializing with `opts2` against `w2`:
the misc pull committed one entry, configs and secrets hold the freshly
initialized empty maps. -/
def st2fin : SailorState :=
  { opts := opts2, configs := some [], secrets := some [], misc := some [("ash", "mval")],
    watcherFileNameResourceMap := [], watchedPaths := [], hasWatchableResource := false }

/-- Environment with all five connection variables set. -/
def env3 : String → String := fun v =>
  if v = "SAILOR_URL" then "http://sailor.local" else
  if v = "SAILOR_NS" then "ns" else
  if v = "SAILOR_APP" then "myapp" else
  if v = "SAILOR_ACCESS_KEY" then "ak" else
  if v = "SAILOR_SECRET_KEY" then "sk" else ""

/-- World whose connection parameters come entirely from the environment. -/
def w3 : World := ⟨env3, fun _ => none, fun _ => none, emptyCodec⟩

/-- A CONFIGS volume resource for the environment-connection scenario. -/
def res3 : ResourceOption := ⟨⟨.configs, "", "/etc/sailor"⟩, ⟨.volume, false⟩, true⟩

/-- Concrete connection for the fallback-status scenario. -/
def conn4 : ConnectionOption := ⟨"http://s", "ns", "myapp", "ak", "sk"⟩

/-- Codec for the fallback scenario: the fallback body decodes fine. -/
def codec4 : JsonCodec :=
  ⟨fun _ => none, fun b => if b = "FBBODY" then some [("a", .num 1)] else none⟩

/-- World for the fallback scenario: a fallback base URL is configured and
the fallback endpoint answers with HTTP 500 and a decodable body. -/
def w4 : World :=
  ⟨fun v => if v = "SAILOR_FALLBACK_BASE_URL" then "http://fb" else "",
   fun _ => none,
   fun u => if u = "http://fb/myapp-config.sailor.fall"
            then some ⟨500, some "FBBODY"⟩ else none,
   codec4⟩

/-- Initialized engine state for the fallback scenario. -/
def st4 : SailorState :=
  { initialState with
    opts := ⟨some conn4, []⟩, configs := some [], secrets := some [], misc := some [] }

/-- Codec for the watch-target scenario: the mounted config file carries an
envelope whose inner text decodes to a one-key config. -/
def codec5 : JsonCodec :=
  ⟨fun b => if b = "CFG" then some [("_content", "INNER")] else
            if b = "SEC" then some [("s", "sv")] else none,
   fun b => if b = "INNER" then some [("app", .str "v")] else none⟩

/-- World for the watch-target scenario: the mounted config and secret
files for app `myapp` both exist. -/
def w5 : World :=
  ⟨fun _ => "",
   fun p => if p = "/etc/sailor/myapp-config" then some "CFG" else
            if p = "/etc/sailor/myapp-secret" then some "SEC" else none,
   fun _ => none,
   codec5⟩

/-- A CONFIGS volume resource rooted at `/etc/sailor`. -/
def res5 : ResourceOption := ⟨⟨.configs, "", "/etc/sailor"⟩, ⟨.volume, false⟩, true⟩

/-- Initialized engine state for the watch-target scenario. -/
def st5 : SailorState :=
  { initialState with
    opts := ⟨some conn1, [res5]⟩, configs := some [], secrets := some [], misc := some [] }

/-- Codec for the misc-isolation scenario. -/
def codec6 : JsonCodec :=
  ⟨fun b => if b = "MISCB" then some [("_content", "payload-b")] else none, fun _ => none⟩

/-- Concrete connection for the misc-isolation scenario. -/
def conn6 : ConnectionOption := ⟨"http://s", "ns", "app", "ak", "sk"⟩

/-- A MISC pull resource named "b". -/
def res6 : ResourceOption := ⟨⟨.misc, "b", ""⟩, ⟨.pull, true⟩, true⟩

/-- World for the misc-isolation scenario: the misc pull URL for "b"
answers 200. -/
def w6 : World :=
  ⟨fun _ => "",
   fun _ => none,
   fun u => if u = "http://s/api/v1/resource/ns/app/misc/b"
            then some ⟨200, some "body-b"⟩ else none,
   codec6⟩

/-- Engine state holding a previously committed misc entry for name "a". -/
def st6 : SailorState :=
  { initialState with
    opts := ⟨some conn6, [res6]⟩, configs := some [], secrets := some [],
    misc := some [("a", "va")] }

/-- World for the watcher-failure scenario: every file read fails. -/
def w7 : World := ⟨fun _ => "", fun _ => none, fun _ => none, emptyCodec⟩

/-- Engine state with one watched config registration. -/
def st7 : SailorState :=
  { initialState with
    opts := ⟨some conn1, []⟩, configs := some [("app", .str "v")], secrets := some [],
    misc := some [],
    watcherFileNameResourceMap := [("myapp-config", ⟨.configs, "/etc/sailor/myapp-config", ""⟩)],
    watchedPaths := ["/etc/sailor/myapp-config"], hasWatchableResource := true }

/-- Codec for the envelope-asymmetry scenario: the volume file "VOL" is an
envelope around "IN"; "IN" and the pull body "PB" decode to distinct
configs; the misc volume file "MV" is an envelope around "mtext". -/
def codec8 : JsonCodec :=
  ⟨fun b => if b = "VOL" then some [("_content", "IN")] else
            if b = "MV" then some [("_content", "mtext")] else none,
   fun b => if b = "IN" then some [("k", .num 1)] else
            if b = "PB" then some [("k", .num 2)] else none⟩

/-- Concrete connection for the envelope-asymmetry scenario. -/
def conn8 : ConnectionOption := ⟨"http://s", "ns", "app", "ak", "sk"⟩

/-- CONFIGS volume resource for the envelope scenario. -/
def res8v : ResourceOption := ⟨⟨.configs, "", "/etc/sailor"⟩, ⟨.volume, false⟩, true⟩

/-- CONFIGS pull resource for the envelope scenario. -/
def res8p : ResourceOption := ⟨⟨.configs, "", ""⟩, ⟨.pull, true⟩, true⟩

/-- MISC pull resource for the envelope scenario. -/
def res8m : ResourceOption := ⟨⟨.misc, "m", ""⟩, ⟨.pull, true⟩, true⟩

/-- World for the envelope scenario. -/
def w8 : World :=
  ⟨fun _ => "",
   fun p => if p = "/etc/sailor/app-config" then some "VOL" else none,
   fun u => if u = "http://s/api/v1/resource/ns/app/config" then some ⟨200, some "PB"⟩ else
            if u = "http://s/api/v1/resource/ns/app/misc/m" then some ⟨200, some "PB"⟩ else none,
   codec8⟩

/-- Initialized engine state for the envelope scenario. -/
def st8 : SailorState :=
  { initialState with
    opts := ⟨some conn8, []⟩, configs := some [], secrets := some [], misc := some [] }

/-- Environment for the validation-order witness: only SAILOR_URL is set. -/
def env9 : String → String := fun v => if v = "SAILOR_URL" then "http://s" else ""

/-- World for the validation-order witness. -/
def w9 : World := ⟨env9, fun _ => none, fun _ => none, emptyCodec⟩

/-- Lookup distributes over list append, preferring the left list. -/
theorem lookupA_append {α : Type} (l₁ l₂ : AList α) (key : String) :
    lookupA (l₁ ++ l₂) key =
      match lookupA l₁ key with
      | some v => some v
      | none => lookupA l₂ key := by
  induction l₁ with
  | nil => simp [lookupA]
  | cons hd tl ih =>
    obtain ⟨k, v⟩ := hd
    by_cases h : key = k
    · simp [lookupA, h]
    · simp [lookupA, h, ih]

/-- Removing bindings of key `b` does not change lookups of `a ≠ b`. -/
theorem lookupA_removeKey_ne {α : Type} (m : AList α) (a b : String) (hab : a ≠ b) :
    lookupA (removeKey m b) a = lookupA m a := by
  induction m with
  | nil => simp [removeKey, lookupA]
  | cons hd tl ih =>
    obtain ⟨k, v⟩ := hd
    by_cases hkb : k = b
    · have hak : a ≠ k := by simpa [hkb] using hab
      simp [removeKey, hkb, lookupA, hak, hab, ih]
    · by_cases hak : a = k
      · simp [removeKey, hkb, lookupA, hak]
      · simp [removeKey, hkb, lookupA, hak, ih]

/-- After removing bindings of key `b`, looking `b` up fails. -/
theorem lookupA_removeKey_self {α : Type} (m : AList α) (b : String) :
    lookupA (removeKey m b) b = none := by
  induction m with
  | nil => simp [removeKey, lookupA]
  | cons hd tl ih =>
    obtain ⟨k, v⟩ := hd
    by_cases hkb : k = b
    · simp [removeKey, hkb, ih]
    · have hbk : b ≠ k := fun h => hkb h.symm
      simp [removeKey, hkb, lookupA, hbk, ih]

/-- Overlaying a binding for `b` leaves every other key's lookup unchanged. -/
theorem lookupA_upsert_ne {α : Type} (m : AList α) (a b : String) (v : α) (hab : a ≠ b) :
    lookupA (upsertA m b v) a = lookupA m a := by
  unfold upsertA
  rw [lookupA_append]
  rw [lookupA_removeKey_ne m a b hab]
  cases h : lookupA m a with
  | none => simp [lookupA, hab]
  | some w => rfl

/-- Overlaying a binding for `b` makes `b` look up to the new value. -/
theorem lookupA_upsert_self {α : Type} (m : AList α) (b : String) (v : α) :
    lookupA (upsertA m b v) b = some v := by
  unfold upsertA
  rw [lookupA_append, lookupA_removeKey_self]
  simp [lookupA]

/-- C10: calling Initialize with an empty Resources list returns the
empty-resource-list error immediately and leaves the engine state — in
particular the three snapshot category references — exactly as it was
before the call, whatever connection was (or was not) supplied. -/
theorem c10_empty_resources_early_error (w : World) (conn : Option ConnectionOption)
    (st : SailorState) :
    Initialize w ⟨conn, []⟩ st = .err st ErrNewConsumerEmptyResourceList := rfl

/-- C9: with a nil Connection and a nonempty resource list, Initialize
validates the environment variables in the exact precedence order
SAILOR_URL, SAILOR_NS, SAILOR_APP, SAILOR_ACCESS_KEY, SAILOR_SECRET_KEY:
the first missing variable in that order determines the returned error, and
the five errors are pairwise distinct, so each identifies its field. -/
theorem c9_env_validation_order (w : World) (st : SailorState) (r : ResourceOption)
    (rs : List ResourceOption) :
    (w.env "SAILOR_URL" = "" →
       Initialize w ⟨none, r :: rs⟩ st = .err st ErrNewConsumerNoSailorURL)
  ∧ (w.env "SAILOR_URL" ≠ "" → w.env "SAILOR_NS" = "" →
       Initialize w ⟨none, r :: rs⟩ st = .err st ErrNewConsumerNoSailorNS)
  ∧ (w.env "SAILOR_URL" ≠ "" → w.env "SAILOR_NS" ≠ "" → w.env "SAILOR_APP" = "" →
       Initialize w ⟨none, r :: rs⟩ st = .err st ErrNewConsumerNoSailorApp)
  ∧ (w.env "SAILOR_URL" ≠ "" → w.env "SAILOR_NS" ≠ "" → w.env "SAILOR_APP" ≠ "" →
     w.env "SAILOR_ACCESS_KEY" = "" →
       Initialize w ⟨none, r :: rs⟩ st = .err st ErrNewConsumerNoSailorAccessKey)
  ∧ (w.env "SAILOR_URL" ≠ "" → w.env "SAILOR_NS" ≠ "" → w.env "SAILOR_APP" ≠ "" →
     w.env "SAILOR_ACCESS_KEY" ≠ "" → w.env "SAILOR_SECRET_KEY" = "" →
       Initialize w ⟨none, r :: rs⟩ st = .err st ErrNewConsumerNoSailorSecretKey)
  ∧ List.Pairwise (· ≠ ·)
      [ErrNewConsumerNoSailorURL, ErrNewConsumerNoSailorNS, ErrNewConsumerNoSailorApp,
       ErrNewConsumerNoSailorAccessKey, ErrNewConsumerNoSailorSecretKey] := by
  refine ⟨?_, ?_, ?_, ?_, ?_, by decide⟩
  · intro h1
    simp [Initialize, connFromEnv, h1]
  · intro h1 h2
    simp [Initialize, connFromEnv, h1, h2]
  · intro h1 h2 h3
    simp [Initialize, connFromEnv, h1, h2, h3]
  · intro h1 h2 h3 h4
    simp [Initialize, connFromEnv, h1, h2, h3, h4]
  · intro h1 h2 h3 h4 h5
    simp [Initialize, connFromEnv, h1, h2, h3, h4, h5]

/-- Witness for c9_env_validation_order: with SAILOR_URL set and SAILOR_NS
unset, Initialize returns exactly the missing-namespace error. -/
theorem c9_env_validation_order_witness :
    Initialize w9 ⟨none, [res3]⟩ initialState = .err initialState ErrNewConsumerNoSailorNS :=
  (c9_env_validation_order w9 initialState res3 []).2.1 (by decide) (by decide)

/-- C3: with a nil Connection and all five environment variables set, the
environment validation succeeds and Initialize proceeds, but the derived
ConnectionOption is discarded — `consumer.opts` is assigned only in the
non-nil branch — so the first resource resolution dereferences a nil
Connection and the run panics instead of using the environment-derived
values. -/
theorem c3_env_connection_discarded :
    connFromEnv env3 = .ok ⟨"http://sailor.local", "ns", "myapp", "ak", "sk"⟩
  ∧ (Initialize w3 ⟨none, [res3]⟩ initialState).isPanic = true
  ∧ (outState (Initialize w3 ⟨none, [res3]⟩ initialState)).opts.Connection = none :=
  ⟨rfl, rfl, rfl⟩

/-- The generic missing-config-key message can never coincide with the
ErrConfigsNotLoaded message, whatever the key. -/
theorem config_missing_msg_ne_notloaded (key : String) :
    GoErr.msg ("config key " ++ key ++ " not found") ≠ ErrConfigsNotLoaded := by
  intro h
  rw [ErrConfigsNotLoaded] at h
  have hs : "config key " ++ key ++ " not found" = "configs are not loaded" := by
    injection h
  rw [String.append_assoc] at hs
  have hd := congrArg String.data hs
  rw [String.data_append] at hd
  have h2 := congrArg (List.take 11) hd
  rw [List.take_left' (by decide : ("config key ".data).length = 11)] at h2
  exact absurd h2 (by decide)

/-- The generic missing-secret-key message can never coincide with the
ErrSecretsNotLoaded message, whatever the key. -/
theorem secret_missing_msg_ne_notloaded (key : String) :
    GoErr.msg ("secret key " ++ key ++ " not found") ≠ ErrSecretsNotLoaded := by
  intro h
  rw [ErrSecretsNotLoaded] at h
  have hs : "secret key " ++ key ++ " not found" = "secrets are not loaded" := by
    injection h
  rw [String.append_assoc] at hs
  have hd := congrArg String.data hs
  rw [String.data_append] at hd
  have h2 := congrArg (List.take 11) hd
  rw [List.take_left' (by decide : ("secret key ".data).length = 11)] at h2
  exact absurd h2 (by decide)

/-- storeRawResource for a non-config kind leaves the configs reference
untouched. -/
theorem storeRawResource_preserves_configs (codec : JsonCodec) (st : SailorState)
    (bytes : String) (k : ResourceKind) (n : String) (st' : SailorState)
    (hk : k ≠ .configs) (h : storeRawResource codec st bytes k n = .ok st') :
    st'.configs = st.configs := by
  cases k with
  | configs => exact absurd rfl hk
  | secrets =>
    unfold storeRawResource at h
    cases hp : codec.parseStrMap bytes <;> simp [hp] at h
    rw [← h]
  | misc =>
    unfold storeRawResource at h
    cases hm : st.misc <;> simp [hm] at h <;> rw [← h]

/-- storeRawResource for a non-secret kind leaves the secrets reference
untouched. -/
theorem storeRawResource_preserves_secrets (codec : JsonCodec) (st : SailorState)
    (bytes : String) (k : ResourceKind) (n : String) (st' : SailorState)
    (hk : k ≠ .secrets) (h : storeRawResource codec st bytes k n = .ok st') :
    st'.secrets = st.secrets := by
  cases k with
  | secrets => exact absurd rfl hk
  | configs =>
    unfold storeRawResource at h
    cases hp : codec.parseAnyMap bytes <;> simp [hp] at h
    rw [← h]
  | misc =>
    unfold storeRawResource at h
    cases hm : st.misc <;> simp [hm] at h <;> rw [← h]

/-- fetchFallback for a non-config kind leaves the configs reference
untouched, whatever the outcome. -/
theorem fetchFallback_preserves_configs (w : World) (st : SailorState) (k : ResourceKind)
    (n : String) (hk : k ≠ .configs) :
    (outState (fetchFallback w st k n)).configs = st.configs := by
  unfold fetchFallback
  dsimp only
  repeat' split
  all_goals first
    | rfl
    | (rename_i st' heq
       exact storeRawResource_preserves_configs w.codec st _ k n st' hk heq)


/-- fetchFallback for a non-secret kind leaves the secrets reference
untouched, whatever the outcome. -/
theorem fetchFallback_preserves_secrets (w : World) (st : SailorState) (k : ResourceKind)
    (n : String) (hk : k ≠ .secrets) :
    (outState (fetchFallback w st k n)).secrets = st.secrets := by
  unfold fetchFallback
  dsimp only
  repeat' split
  all_goals first
    | rfl
    | (rename_i st' heq
       exact storeRawResource_preserves_secrets w.codec st _ k n st' hk heq)


/-- manageSecrets never touches the configs reference (for any resource
whose Kind is not CONFIGS, covering its fallback path too). -/
theorem manageSecrets_preserves_configs (w : World) (st : SailorState) (res : ResourceOption)
    (hk : res.Def.Kind ≠ .configs) :
    (outState (manageSecrets w st res)).configs = st.configs := by
  unfold manageSecrets
  dsimp only
  repeat' split
  all_goals first
    | rfl
    | exact fetchFallback_preserves_configs w st res.Def.Kind res.Def.Name hk


/-- manageMisc never touches the configs reference (for any resource whose
Kind is not CONFIGS). -/
theorem manageMisc_preserves_configs (w : World) (st : SailorState) (res : ResourceOption)
    (hk : res.Def.Kind ≠ .configs) :
    (outState (manageMisc w st res)).configs = st.configs := by
  unfold manageMisc
  dsimp only
  repeat' split
  all_goals first
    | rfl
    | exact fetchFallback_preserves_configs w st res.Def.Kind res.Def.Name hk


/-- manageConfig never touches the secrets reference (for any resource
whose Kind is not SECRETS). -/
theorem manageConfig_preserves_secrets (w : World) (st : SailorState) (res : ResourceOption)
    (hk : res.Def.Kind ≠ .secrets) :
    (outState (manageConfig w st res)).secrets = st.secrets := by
  unfold manageConfig
  dsimp only
  repeat' split
  all_goals first
    | rfl
    | exact fetchFallback_preserves_secrets w st res.Def.Kind res.Def.Name hk


/-- manageMisc never touches the secrets reference (for any resource whose
Kind is not SECRETS). -/
theorem manageMisc_preserves_secrets (w : World) (st : SailorState) (res : ResourceOption)
    (hk : res.Def.Kind ≠ .secrets) :
    (outState (manageMisc w st res)).secrets = st.secrets := by
  unfold manageMisc
  dsimp only
  repeat' split
  all_goals first
    | rfl
    | exact fetchFallback_preserves_secrets w st res.Def.Kind res.Def.Name hk


/-- Dispatching a non-config resource leaves the configs reference
untouched. -/
theorem manageResource_preserves_configs (w : World) (st : SailorState) (res : ResourceOption)
    (hk : res.Def.Kind ≠ .configs) :
    (outState (manageResource w st res)).configs = st.configs := by
  unfold manageResource
  split
  · rename_i hkind
    exact absurd hkind hk
  · exact manageSecrets_preserves_configs w st res hk
  · exact manageMisc_preserves_configs w st res hk

/-- Dispatching a non-secret resource leaves the secrets reference
untouched. -/
theorem manageResource_preserves_secrets (w : World) (st : SailorState) (res : ResourceOption)
    (hk : res.Def.Kind ≠ .secrets) :
    (outState (manageResource w st res)).secrets = st.secrets := by
  unfold manageResource
  split
  · exact manageConfig_preserves_secrets w st res hk
  · rename_i hkind
    exact absurd hkind hk
  · exact manageMisc_preserves_secrets w st res hk

/-- Managing a list with no CONFIGS resource leaves the configs reference
untouched. -/
theorem manageAll_preserves_configs (w : World) (rs : List ResourceOption) :
    ∀ st : SailorState, (∀ r ∈ rs, r.Def.Kind ≠ .configs) →
      (outState (manageAll w st rs)).configs = st.configs := by
  induction rs with
  | nil => intro st _; rfl
  | cons r rest ih =>
    intro st h
    unfold manageAll
    have h1 := manageResource_preserves_configs w st r (h r (by simp))
    cases hr : manageResource w st r with
    | ok st' =>
      rw [hr] at h1
      rw [ih st' (fun x hx => h x (by simp [hx]))]
      exact h1
    | err st' e =>
      rw [hr] at h1
      exact h1
    | panicked st' =>
      rw [hr] at h1
      exact h1

/-- Managing a list with no SECRETS resource leaves the secrets reference
untouched. -/
theorem manageAll_preserves_secrets (w : World) (rs : List ResourceOption) :
    ∀ st : SailorState, (∀ r ∈ rs, r.Def.Kind ≠ .secrets) →
      (outState (manageAll w st rs)).secrets = st.secrets := by
  induction rs with
  | nil => intro st _; rfl
  | cons r rest ih =>
    intro st h
    unfold manageAll
    have h1 := manageResource_preserves_secrets w st r (h r (by simp))
    cases hr : manageResource w st r with
    | ok st' =>
      rw [hr] at h1
      rw [ih st' (fun x hx => h x (by simp [hx]))]
      exact h1
    | err st' e =>
      rw [hr] at h1
      exact h1
    | panicked st' =>
      rw [hr] at h1
      exact h1

/-- With no CONFIGS resource declared, the configs reference still holds
the freshly initialized empty map after the manage loop. -/
theorem initAndManage_configs_empty (w : World) (st : SailorState) (io : InitOption)
    (hnc : ∀ r ∈ io.Resources, r.Def.Kind ≠ .configs) :
    (outState (initAndManage w st io)).configs = some [] := by
  unfold initAndManage
  rw [manageAll_preserves_configs w io.Resources _ hnc]

/-- With no SECRETS resource declared, the secrets reference still holds
the freshly initialized empty map after the manage loop. -/
theorem initAndManage_secrets_empty (w : World) (st : SailorState) (io : InitOption)
    (hns : ∀ r ∈ io.Resources, r.Def.Kind ≠ .secrets) :
    (outState (initAndManage w st io)).secrets = some [] := by
  unfold initAndManage
  rw [manageAll_preserves_secrets w io.Resources _ hns]

/-- C2 counterexample: a concrete Initialize run (one once-only misc pull
resource, succeeding) commits nothing to the configs or secrets categories
beyond the empty-map initialization, and a Get/GetSecret on those
just-initialized empty maps returns the generic missing-key error — not
ErrConfigsNotLoaded / ErrSecretsNotLoaded, which differ from the errors
actually returned.  This refutes the claim that reads before the first
commit of a category surface a distinguishable not-loaded error. -/
theorem c2_counterexample :
    Initialize w2 opts2 initialState = .ok st2fin
  ∧ st2fin.configs = some []
  ∧ st2fin.secrets = some []
  ∧ Get [] "dbUrl" = .error (.msg "config key dbUrl not found")
  ∧ GetSecret [] "token" = .error (.msg "secret key token not found")
  ∧ GoErr.msg "config key dbUrl not found" ≠ ErrConfigsNotLoaded
  ∧ GoErr.msg "secret key token not found" ≠ ErrSecretsNotLoaded :=
  ⟨rfl, rfl, rfl, rfl, rfl, by decide, by decide⟩

/-- C2 (amended): after a successful Initialize that declares no CONFIGS
and no SECRETS resource, the configs and secrets references hold the empty
maps stored during initialization, so a Get/GetSecret before the first
commit of those categories returns the generic missing-key error; the
not-loaded errors of errors.go are never returned by Get/GetSecret for any
loaded map and any key. -/
theorem c2_get_before_commit (w : World) (io : InitOption) (st st' : SailorState) (key : String)
    (hrun : Initialize w io st = .ok st')
    (hnc : ∀ r ∈ io.Resources, r.Def.Kind ≠ .configs ∧ r.Def.Kind ≠ .secrets) :
    st'.configs = some []
  ∧ st'.secrets = some []
  ∧ Get [] key = .error (.msg ("config key " ++ key ++ " not found"))
  ∧ GetSecret [] key = .error (.msg ("secret key " ++ key ++ " not found"))
  ∧ (∀ (m : AList JVal) (k : String), Get m k ≠ .error ErrConfigsNotLoaded)
  ∧ (∀ (m : AList String) (k : String), GetSecret m k ≠ .error ErrSecretsNotLoaded) := by
  have hcfg : st'.configs = some [] ∧ st'.secrets = some [] := by
    unfold Initialize at hrun
    by_cases he : io.Resources.isEmpty <;> simp [he] at hrun
    cases hc : io.Connection <;> simp only [hc] at hrun
    · cases hcf : connFromEnv w.env <;> simp only [hcf] at hrun
      · simp at hrun
      · have h1 := initAndManage_configs_empty w st io (fun r hr => (hnc r hr).1)
        have h2 := initAndManage_secrets_empty w st io (fun r hr => (hnc r hr).2)
        rw [hrun] at h1 h2
        exact ⟨h1, h2⟩
    · have h1 := initAndManage_configs_empty w { st with opts := io } io (fun r hr => (hnc r hr).1)
      have h2 := initAndManage_secrets_empty w { st with opts := io } io (fun r hr => (hnc r hr).2)
      rw [hrun] at h1 h2
      exact ⟨h1, h2⟩
  refine ⟨hcfg.1, hcfg.2, rfl, rfl, ?_, ?_⟩
  · intro m k h
    unfold Get at h
    cases hl : lookupA m k <;> rw [hl] at h
    · have hinj : GoErr.msg ("config key " ++ k ++ " not found") = ErrConfigsNotLoaded := by
        injection h
      exact config_missing_msg_ne_notloaded k hinj
    · exact absurd h (by simp)
  · intro m k h
    unfold GetSecret at h
    cases hl : lookupA m k <;> rw [hl] at h
    · have hinj : GoErr.msg ("secret key " ++ k ++ " not found") = ErrSecretsNotLoaded := by
        injection h
      exact secret_missing_msg_ne_notloaded k hinj
    · exact absurd h (by simp)

/-- Witness for c2_get_before_commit at the concrete scenario of
`c2_counterexample`. -/
theorem c2_get_before_commit_witness :
    st2fin.configs = some []
  ∧ Get [] "dbUrl" = .error (.msg ("config key " ++ "dbUrl" ++ " not found")) :=
  ⟨(c2_get_before_commit w2 opts2 initialState st2fin "dbUrl" rfl
      (by intro r hr
          rw [show opts2.Resources = [res2] from rfl, List.mem_singleton] at hr
          subst hr
          exact ⟨by decide, by decide⟩)).1,
   (c2_get_before_commit w2 opts2 initialState st2fin "dbUrl" rfl
      (by intro r hr
          rw [show opts2.Resources = [res2] from rfl, List.mem_singleton] at hr
          subst hr
          exact ⟨by decide, by decide⟩)).2.2.1⟩

/-- C4 counterexample: with a fallback base configured, a fallback GET
answering HTTP 500 with a decodable body is not treated as a failure —
fetchFallback returns success and commits the decoded body, because the
response status code is never examined.  This refutes the claim that a
non-2xx fallback response is terminal and never decoded and committed. -/
theorem c4_counterexample :
    w4.fetch "http://fb/myapp-config.sailor.fall" = some ⟨500, some "FBBODY"⟩
  ∧ fetchFallback w4 st4 .configs "" = .ok { st4 with configs := some [("a", .num 1)] } :=
  ⟨rfl, rfl⟩

/-- C4 (amended): the fallback fetch is a failure exactly when no fallback
base address is configured, the fallback GET returns a transport error,
reading the response body fails, or decoding/committing the body fails;
the HTTP status code is not examined, so a response with any status —
2xx or not — whose body reads and decodes is committed as a success. -/
theorem c4_fallback_failure_conditions (w : World) (st : SailorState) (conn : ConnectionOption)
    (forKind : ResourceKind) (resName : String)
    (hconn : st.opts.Connection = some conn) :
    (w.env "SAILOR_FALLBACK_BASE_URL" = "" →
       fetchFallback w st forKind resName = .err st ErrFetchFallbackFailed)
  ∧ (∀ base, w.env "SAILOR_FALLBACK_BASE_URL" = base → base ≠ "" →
       w.fetch (base ++ "/" ++ conn.App ++ "-" ++ kindSegment forKind ++ ".sailor.fall") = none →
       fetchFallback w st forKind resName = .err st .httpError)
  ∧ (∀ base status, w.env "SAILOR_FALLBACK_BASE_URL" = base → base ≠ "" →
       w.fetch (base ++ "/" ++ conn.App ++ "-" ++ kindSegment forKind ++ ".sailor.fall")
         = some ⟨status, none⟩ →
       fetchFallback w st forKind resName = .err st .readError)
  ∧ (∀ base status resBytes e, w.env "SAILOR_FALLBACK_BASE_URL" = base → base ≠ "" →
       w.fetch (base ++ "/" ++ conn.App ++ "-" ++ kindSegment forKind ++ ".sailor.fall")
         = some ⟨status, some resBytes⟩ →
       storeRawResource w.codec st resBytes forKind resName = .error e →
       fetchFallback w st forKind resName = .err st e)
  ∧ (∀ base status resBytes st', w.env "SAILOR_FALLBACK_BASE_URL" = base → base ≠ "" →
       w.fetch (base ++ "/" ++ conn.App ++ "-" ++ kindSegment forKind ++ ".sailor.fall")
         = some ⟨status, some resBytes⟩ →
       storeRawResource w.codec st resBytes forKind resName = .ok st' →
       fetchFallback w st forKind resName = .ok st') := by
  refine ⟨?_, ?_, ?_, ?_, ?_⟩
  · intro h1
    simp [fetchFallback, h1]
  · intro base hb hbne hf
    subst hb
    simp [fetchFallback, hbne, hconn, hf]
  · intro base status hb hbne hf
    subst hb
    simp [fetchFallback, hbne, hconn, hf]
  · intro base status resBytes e hb hbne hf hs
    subst hb
    simp [fetchFallback, hbne, hconn, hf, hs]
  · intro base status resBytes st' hb hbne hf hs
    subst hb
    simp [fetchFallback, hbne, hconn, hf, hs]

/-- Witness for c4_fallback_failure_conditions: the success conjunct applied
at the concrete HTTP-500 scenario of the counterexample. -/
theorem c4_fallback_failure_conditions_witness :
    fetchFallback w4 st4 .configs "" = .ok { st4 with configs := some [("a", .num 1)] } :=
  (c4_fallback_failure_conditions w4 st4 conn4 .configs "" rfl).2.2.2.2
    "http://fb" 500 "FBBODY" { st4 with configs := some [("a", .num 1)] }
    rfl (by decide) rfl rfl

/-- C5 counterexample: a successful Mounted-Path config acquisition adds a
filesystem watch on the resource file path itself
(`/etc/sailor/myapp-config`), not on the containing directory
(`/etc/sailor`, the resource's declared Path).  This refutes the claim
that the watch is added on the directory containing the file. -/
theorem c5_counterexample :
    (manageConfig w5 st5 res5).isOk = true
  ∧ (outState (manageConfig w5 st5 res5)).watchedPaths = ["/etc/sailor/myapp-config"]
  ∧ res5.Def.Path = "/etc/sailor"
  ∧ ("/etc/sailor/myapp-config" : String) ≠ "/etc/sailor" :=
  ⟨rfl, rfl, rfl, by decide⟩

/-- C5 (amended): on every successful Mounted-Path acquisition of a
configuration or secret resource, the engine registers a WatchRegistration
keyed by the file's base name and adds the filesystem watch on the resource
file path itself (`{Path}/{App}-config` resp. `{Path}/{App}-secret`), not
on the containing directory; the watcher later matches events against the
registration by base name. -/
theorem c5_watch_on_file_path (w : World) (st : SailorState) (conn : ConnectionOption)
    (resC resS : ResourceOption) (cbytes sbytes : String)
    (config : AList JVal) (secret : AList String)
    (hconn : st.opts.Connection = some conn)
    (hvC : resC.FetchDef.Fetch = .volume)
    (hfsC : w.fs (resC.Def.Path ++ "/" ++ (conn.App ++ "-config")) = some cbytes)
    (hpC : parseConfig w.codec cbytes = .ok config)
    (hvS : resS.FetchDef.Fetch = .volume)
    (hfsS : w.fs (resS.Def.Path ++ "/" ++ (conn.App ++ "-secret")) = some sbytes)
    (hpS : w.codec.parseStrMap sbytes = some secret) :
    (outState (manageConfig w st resC)).watchedPaths
      = st.watchedPaths ++ [resC.Def.Path ++ "/" ++ (conn.App ++ "-config")]
  ∧ lookupA (outState (manageConfig w st resC)).watcherFileNameResourceMap (conn.App ++ "-config")
      = some ⟨.configs, resC.Def.Path ++ "/" ++ (conn.App ++ "-config"), ""⟩
  ∧ (outState (manageSecrets w st resS)).watchedPaths
      = st.watchedPaths ++ [resS.Def.Path ++ "/" ++ (conn.App ++ "-secret")]
  ∧ lookupA (outState (manageSecrets w st resS)).watcherFileNameResourceMap (conn.App ++ "-secret")
      = some ⟨.secrets, resS.Def.Path ++ "/" ++ (conn.App ++ "-secret"), ""⟩ := by
  refine ⟨?_, ?_, ?_, ?_⟩
  · simp [manageConfig, hvC, hconn, hfsC, hpC, outState]
  · simp [manageConfig, hvC, hconn, hfsC, hpC, outState, lookupA_upsert_self]
  · simp [manageSecrets, hvS, hconn, hfsS, hpS, outState]
  · simp [manageSecrets, hvS, hconn, hfsS, hpS, outState, lookupA_upsert_self]

/-- Witness for c5_watch_on_file_path at the concrete scenario of the
counterexample: `w5` serves both the mounted config file and the mounted
secret file for app `myapp`. -/
theorem c5_watch_on_file_path_witness :
    (outState (manageConfig w5 st5 res5)).watchedPaths
      = st5.watchedPaths ++ [res5.Def.Path ++ "/" ++ (conn1.App ++ "-config")] :=
  (c5_watch_on_file_path w5 st5 conn1 res5
      ⟨⟨.secrets, "", "/etc/sailor"⟩, ⟨.volume, false⟩, true⟩ "CFG" "SEC"
      [("app", .str "v")] [("s", "sv")]
      rfl rfl rfl rfl rfl rfl rfl).1

/-- C1 counterexample: a Mounted-Path secret acquisition commits the parsed
name-to-record mapping verbatim, so GetSecret on the loaded key returns the
encrypted record string "ENC:shhh" — not the plaintext "shhh" that the
(spec-modelled) decryption capability yields for that record under the
connection's credential pair.  No key-encryption-key derivation or
decryption happens anywhere on this engine's commit path. -/
theorem c1_counterexample :
    (manageSecrets w1 st1 res1).isOk = true
  ∧ (outState (manageSecrets w1 st1 res1)).secrets = some [("k", "ENC:shhh")]
  ∧ GetSecret [("k", "ENC:shhh")] "k" = .ok "ENC:shhh"
  ∧ cap1.decryptRecord "ENC:shhh" conn1.SecretKey conn1.AccessKey = some "shhh"
  ∧ ("ENC:shhh" : String) ≠ "shhh" :=
  ⟨rfl, rfl, rfl, by decide, by decide⟩

/-- C1 (amended): on every secret acquisition — Mounted-Path read or raw
commit via storeRawResource (the path shared by fallback and the poll
loop) — the engine commits the parsed name-to-string mapping verbatim,
with no decryption step, and GetSecret returns the stored record string
as-is. -/
theorem c1_secrets_committed_verbatim (w : World) (st : SailorState) (conn : ConnectionOption)
    (res : ResourceOption) (bytes : String) (secret : AList String)
    (hconn : st.opts.Connection = some conn)
    (hvol : res.FetchDef.Fetch = .volume)
    (hfs : w.fs (res.Def.Path ++ "/" ++ (conn.App ++ "-secret")) = some bytes)
    (hparse : w.codec.parseStrMap bytes = some secret) :
    (outState (manageSecrets w st res)).secrets = some secret
  ∧ (∀ st₂ st₂', storeRawResource w.codec st₂ bytes .secrets res.Def.Name = .ok st₂' →
       st₂'.secrets = some secret)
  ∧ (∀ k v, lookupA secret k = some v → GetSecret secret k = .ok v) := by
  refine ⟨?_, ?_, ?_⟩
  · simp [manageSecrets, hvol, hconn, hfs, hparse, outState]
  · intro st₂ st₂' h
    unfold storeRawResource at h
    simp [hparse] at h
    rw [← h]
  · intro k v hk
    unfold GetSecret
    rw [hk]

/-- Witness for c1_secrets_committed_verbatim at the concrete scenario of
the counterexample. -/
theorem c1_secrets_committed_verbatim_witness :
    (outState (manageSecrets w1 st1 res1)).secrets = some [("k", "ENC:shhh")] :=
  (c1_secrets_committed_verbatim w1 st1 conn1 res1 "SECFILE" [("k", "ENC:shhh")]
      rfl rfl rfl rfl).1

/-- C6: committing a new value for misc name `b` — via the volume parse
path (parseMisc, shared with watcher re-ingest), the raw commit path
(storeRawResource, shared by fallback and the poll loop), or the remote
pull path of manageMisc — produces a new mapping that is the old mapping
with only the `b` entry overlaid, installed as a whole; the previously
committed entry for any other name `a` stays present with its old value,
and both names are readable afterwards. -/
theorem c6_misc_commit_isolation (w : World) (st : SailorState) (old : AList String)
    (conn : ConnectionOption) (res : ResourceOption) (a b va bytes : String)
    (hmisc : st.misc = some old) (hconn : st.opts.Connection = some conn)
    (hab : a ≠ b) (ha : lookupA old a = some va) :
    (∀ m', parseMisc w.codec old bytes b = .ok m' →
        lookupA m' a = lookupA old a ∧ GetMisc m' a = .ok va)
  ∧ (∀ st', storeRawResource w.codec st bytes .misc b = .ok st' →
        st'.misc = some (upsertA old b bytes)
        ∧ GetMisc (upsertA old b bytes) a = .ok va
        ∧ GetMisc (upsertA old b bytes) b = .ok bytes)
  ∧ (∀ body, res.Def.Name = b → res.FetchDef.Fetch = .pull →
        w.fetch (conn.Addr ++ "/api/v1/resource/" ++ conn.Namespace ++ "/" ++ conn.App
                 ++ "/misc/" ++ res.Def.Name) = some ⟨200, some body⟩ →
        manageMisc w st res = .ok { st with misc := some (upsertA old b body) }
        ∧ GetMisc (upsertA old b body) a = .ok va) := by
  refine ⟨?_, ?_, ?_⟩
  · intro m' h
    unfold parseMisc at h
    cases hp : w.codec.parseStrMap bytes <;> simp [hp] at h
    constructor
    · rw [← h]
      exact lookupA_upsert_ne old a b _ hab
    · rw [← h]
      unfold GetMisc
      rw [lookupA_upsert_ne old a b _ hab, ha]
  · intro st' h
    unfold storeRawResource at h
    simp [hmisc] at h
    refine ⟨by rw [← h], ?_, ?_⟩
    · unfold GetMisc
      rw [lookupA_upsert_ne old a b bytes hab, ha]
    · unfold GetMisc
      rw [lookupA_upsert_self old b bytes]
  · intro body hname hfetchkind hf
    subst hname
    constructor
    · simp [manageMisc, hfetchkind, hconn, hf, hmisc]
    · unfold GetMisc
      rw [lookupA_upsert_ne old a res.Def.Name body hab, ha]

/-- Witness for c6_misc_commit_isolation: committing misc name "b" keeps
the committed entry for "a" readable with its old value. -/
theorem c6_misc_commit_isolation_witness :
    manageMisc w6 st6 res6 = .ok { st6 with misc := some (upsertA [("a", "va")] "b" "body-b") }
  ∧ GetMisc (upsertA [("a", "va")] "b" "body-b") "a" = .ok "va" :=
  (c6_misc_commit_isolation w6 st6 [("a", "va")] conn6 res6 "a" "b" "va" "MISCB"
      rfl rfl (by decide) rfl).2.2 "body-b" rfl rfl rfl

/-- C7: when a watched file's re-read fails or its re-decode fails, one
iteration of the watcher loop leaves the engine state — in particular every
category's live snapshot — completely unchanged; the loop itself is a total
step function, so the failure does not terminate it. -/
theorem c7_watch_failure_preserves_snapshot (w : World) (st : SailorState)
    (eventName : String) (wi : WatcherInfo)
    (hreg : lookupA st.watcherFileNameResourceMap (baseName eventName) = some wi)
    (hfail : reIngestFails w st wi = true) :
    watchStep w st eventName true = st := by
  obtain ⟨kind, path, name⟩ := wi
  unfold watchStep
  unfold reIngestFails at hfail
  cases kind with
  | configs =>
    cases hfs : w.fs path with
    | none => simp [hreg, hfs]
    | some bytes =>
      simp only [hfs] at hfail
      cases hp : parseConfig w.codec bytes with
      | error e => simp [hreg, hfs, hp]
      | ok config => exact absurd hfail (by simp [hp, isErrE])
  | secrets =>
    cases hfs : w.fs path with
    | none => simp [hreg, hfs]
    | some bytes =>
      simp only [hfs] at hfail
      cases hp : w.codec.parseStrMap bytes with
      | none => simp [hreg, hfs, hp]
      | some secret => exact absurd hfail (by simp [hp])
  | misc =>
    cases hfs : w.fs path with
    | none => simp [hreg, hfs]
    | some bytes =>
      simp only [hfs] at hfail
      cases hp : parseMisc w.codec ((st.misc).getD []) bytes name with
      | error e => simp [hreg, hfs, hp]
      | ok misc => exact absurd hfail (by simp [hp, isErrE])

/-- Witness for c7_watch_failure_preserves_snapshot: a write event for the
watched config file whose re-read fails leaves the state unchanged. -/
theorem c7_watch_failure_preserves_snapshot_witness :
    watchStep w7 st7 "/etc/sailor/myapp-config" true = st7 :=
  c7_watch_failure_preserves_snapshot w7 st7 "/etc/sailor/myapp-config"
    ⟨.configs, "/etc/sailor/myapp-config", ""⟩ rfl rfl

/-- C8: byte interpretation is asymmetric between the two strategies.  A
Mounted-Path configuration payload is first unwrapped from its
single-text-field envelope (the "_content" key) and the inner text is then
decoded as the config — that inner decode is what gets committed; a
Remote-Pull configuration payload is decoded directly from the response
body, with no envelope unwrapping.  A Mounted-Path misc payload becomes
the envelope's inner text; a Remote-Pull misc payload is the raw response
body. -/
theorem c8_envelope_asymmetry (w : World) (st : SailorState) (conn : ConnectionOption)
    (resV resP resM : ResourceOption) (old : AList String)
    (bytes mbytes body mbody : String) (content mcontent : AList String)
    (config pconfig : AList JVal)
    (hconn : st.opts.Connection = some conn)
    (hmisc : st.misc = some old)
    (hvV : resV.FetchDef.Fetch = .volume)
    (hfsV : w.fs (resV.Def.Path ++ "/" ++ (conn.App ++ "-config")) = some bytes)
    (houter : w.codec.parseStrMap bytes = some content)
    (hinner : w.codec.parseAnyMap ((lookupA content "_content").getD "") = some config)
    (hvP : resP.FetchDef.Fetch = .pull)
    (hfP : w.fetch (conn.Addr ++ "/api/v1/resource/" ++ conn.Namespace ++ "/" ++ conn.App
                    ++ "/config") = some ⟨200, some body⟩)
    (hbP : w.codec.parseAnyMap body = some pconfig)
    (hvM : resM.FetchDef.Fetch = .pull)
    (houtM : w.codec.parseStrMap mbytes = some mcontent)
    (hfM : w.fetch (conn.Addr ++ "/api/v1/resource/" ++ conn.Namespace ++ "/" ++ conn.App
                    ++ "/misc/" ++ resM.Def.Name) = some ⟨200, some mbody⟩) :
    parseConfig w.codec bytes = .ok config
  ∧ (outState (manageConfig w st resV)).configs = some config
  ∧ (outState (manageConfig w st resP)).configs = some pconfig
  ∧ parseMisc w.codec old mbytes resM.Def.Name
      = .ok (upsertA old resM.Def.Name ((lookupA mcontent "_content").getD ""))
  ∧ (outState (manageMisc w st resM)).misc = some (upsertA old resM.Def.Name mbody) := by
  have hpc : parseConfig w.codec bytes = .ok config := by
    unfold parseConfig
    simp only [houter, hinner]
  refine ⟨hpc, ?_, ?_, ?_, ?_⟩
  · simp [manageConfig, hvV, hconn, hfsV, hpc, outState]
  · simp [manageConfig, hvP, hconn, hfP, hbP, outState]
  · unfold parseMisc
    simp only [houtM]
  · simp [manageMisc, hvM, hconn, hfM, hmisc, outState]

/-- Witness for c8_envelope_asymmetry at the concrete world `w8`: the
volume file "VOL" commits its inner decode, the pull body "PB" is decoded
directly, and the misc pull commits the raw body. -/
theorem c8_envelope_asymmetry_witness :
    (outState (manageConfig w8 st8 res8v)).configs = some [("k", JVal.num 1)]
  ∧ (outState (manageConfig w8 st8 res8p)).configs = some [("k", JVal.num 2)]
  ∧ (outState (manageMisc w8 st8 res8m)).misc = some (upsertA [] "m" "PB") :=
  ⟨(c8_envelope_asymmetry w8 st8 conn8 res8v res8p res8m [] "VOL" "MV" "PB" "PB"
      [("_content", "IN")] [("_content", "mtext")] [("k", JVal.num 1)] [("k", JVal.num 2)]
      rfl rfl rfl rfl rfl rfl rfl rfl rfl rfl rfl rfl).2.1,
   (c8_envelope_asymmetry w8 st8 conn8 res8v res8p res8m [] "VOL" "MV" "PB" "PB"
      [("_content", "IN")] [("_content", "mtext")] [("k", JVal.num 1)] [("k", JVal.num 2)]
      rfl rfl rfl rfl rfl rfl rfl rfl rfl rfl rfl rfl).2.2.1,
   (c8_envelope_asymmetry w8 st8 conn8 res8v res8p res8m [] "VOL" "MV" "PB" "PB"
      [("_content", "IN")] [("_content", "mtext")] [("k", JVal.num 1)] [("k", JVal.num 2)]
      rfl rfl rfl rfl rfl rfl rfl rfl rfl rfl rfl rfl).2.2.2.2⟩

end SailorGo
